import Mathlib

/-
Shallow embedding of the `check` package (internal/check/check.go): a
validation helper layer over gNMI-style lookups and watches.

Modelling choices, stated once:
  * A Go `error` value observed by this package is modelled by `GoError`:
    the string its `%v` rendering produces, together with the one bit of
    structure the package inspects, namely whether `errors.As` extraction
    yields a gRPC status whose code is `codes.DeadlineExceeded`.
  * A `*ygnmi.Value[T]` as delivered by Lookup/Watch is `Option T`:
    `some t` when present with value `t`, `none` when the wrapper exists
    but holds no value.  The nil-pointer wrapper case appears only in
    `FormatValuePtr`, mirroring FormatValue in the source.
  * The client is abstracted by its observable behaviour: the result of
    the one-shot `ygnmi.Lookup` (`Except GoError (Option T)`), the list
    of successive values the `ygnmi.Watch` stream would deliver, and the
    terminal error the stream ends with when no delivered value stops it
    (context deadline, cancellation, or transport failure).  The watch
    callback stops the stream with success exactly when it returns nil,
    in which case `watcher.Await()` returns a nil error.
  * A query is represented by its resolved display string (the output of
    FormatPath on its path struct), which is all this package reads from
    it when building messages.
  * `reflect.DeepEqual` is structural equality, via `DecidableEq`.
  * `fmt.Sprintf("%#v", x)` is an uninterpreted rendering function
    `T → String` supplied where the source instantiates a factory.
-/

namespace CheckPkg

/-- A Go error as observed by the check package: its rendered message and
whether it carries a gRPC status with code DeadlineExceeded. -/
structure GoError where
  msg : String
  isDeadlineExceeded : Bool
deriving DecidableEq

/-- fmt.Errorf: a plain formatted error, not a gRPC status. -/
def fmtErrorf (s : String) : GoError :=
  ⟨s, false⟩

/-- isTimeout (check.go:259): true iff err is non-nil and extraction of a
gRPC status succeeds with code DeadlineExceeded. -/
def isTimeout : Option GoError → Bool
  | none => false
  | some e => e.isDeadlineExceeded

/-- FormatValue (check.go:177) restricted to a non-nil wrapper: "no value"
when the value is not present, else the %#v rendering of the held value. -/
def FormatValue {T : Type} (fmtT : T → String) : Option T → String
  | none => "no value"
  | some val => fmtT val

/-- FormatValue (check.go:177) on a possibly-nil wrapper pointer: "nil" for
the nil pointer, else as `FormatValue`. -/
def FormatValuePtr {T : Type} (fmtT : T → String) : Option (Option T) → String
  | none => "nil"
  | some v => FormatValue fmtT v

/-- validationError (check.go:221): the structured failure carrying the
query (as its display string), the optional error returned by the
validation function, and the optional error from the fetch machinery. -/
structure ValidationError where
  qStr : String
  validationErr : Option GoError
  failureCause : Option GoError
deriving DecidableEq

/-- Error (check.go:235): message rendering of a validationError. -/
def ValidationError.Error (f : ValidationError) : String :=
  if isTimeout f.failureCause then
    match f.validationErr with
    | some v => f.qStr ++ ": " ++ v.msg ++ " (deadline exceeded)"
    | none => f.qStr ++ ": deadline exceeded before any values were fetched"
  else
    match f.failureCause with
    | some c => f.qStr ++ ": " ++ c.msg
    | none =>
      match f.validationErr with
      | some v => f.qStr ++ ": " ++ v.msg
      | none => f.qStr ++ ": unknown error"

/-- validation (check.go:273): a query paired with a validation function.
The function returns `none` when the fetched value passes. -/
structure Validation (T : Type) where
  qStr : String
  validationFn : Option T → Option GoError

/-- Check (check.go:293): one Lookup; on fetch error, a validationError
with only failureCause set; otherwise the validation function runs on the
fetched value, and its error (if any) becomes validationErr. -/
def Check {T : Type} (vd : Validation T) (lookup : Except GoError (Option T)) :
    Option ValidationError :=
  match lookup with
  | .error e => some ⟨vd.qStr, none, some e⟩
  | .ok lastVal =>
    match vd.validationFn lastVal with
    | some e => some ⟨vd.qStr, some e, none⟩
    | none => none

/-- The watch loop inside Await (check.go:325): each delivered value is
validated; a passing value stops the stream with success (nil); when the
stream instead ends with `termErr`, the result is a validationError whose
failureCause is `termErr` and whose validationErr is the most recently
recorded validation failure. -/
def awaitWatch {T : Type} (vd : Validation T) (termErr : GoError) :
    Option GoError → List (Option T) → Option ValidationError
  | lastInvalid, [] => some ⟨vd.qStr, lastInvalid, some termErr⟩
  | _, v :: rest =>
    match vd.validationFn v with
    | none => none
    | some e => awaitWatch vd termErr (some e) rest

/-- Await (check.go:314): a plain Check first; its result is returned
as-is when it is nil or carries a failureCause. Otherwise the watch phase
runs, with lastInvalid initialised to the validation error of the Check. -/
def Await {T : Type} (vd : Validation T) (lookup : Except GoError (Option T))
    (stream : List (Option T)) (termErr : GoError) : Option ValidationError :=
  match Check vd lookup with
  | none => none
  | some checkErr =>
    if checkErr.failureCause.isSome then some checkErr
    else awaitWatch vd termErr checkErr.validationErr stream

/-- AwaitFor (check.go:347): timeouts are int64 nanosecond durations,
modelled as Int; a timeout ≤ 0 short-circuits to Check. -/
def AwaitFor {T : Type} (vd : Validation T) (timeout : Int)
    (lookup : Except GoError (Option T)) (stream : List (Option T))
    (termErr : GoError) : Option ValidationError :=
  if timeout ≤ 0 then Check vd lookup
  else Await vd lookup stream termErr

/-- AwaitUntil (check.go:358): instants are modelled as Int timestamps;
`deadline.Before(time.Now())` is the strict comparison deadline < now. -/
def AwaitUntil {T : Type} (vd : Validation T) (deadline now : Int)
    (lookup : Except GoError (Option T)) (stream : List (Option T))
    (termErr : GoError) : Option ValidationError :=
  if deadline < now then Check vd lookup
  else Await vd lookup stream termErr

/-- AwaitFor as the specification text states it: duration ≤ 0 behaves
exactly as Check, otherwise Await runs under the derived deadline. -/
def AwaitForSpec {T : Type} (vd : Validation T) (timeout : Int)
    (lookup : Except GoError (Option T)) (stream : List (Option T))
    (termErr : GoError) : Option ValidationError :=
  if timeout ≤ 0 then Check vd lookup
  else Await vd lookup stream termErr

/-- AwaitUntil as the specification text states it: a deadline not after
the current time (deadline ≤ now) behaves exactly as Check, otherwise
Await runs under the derived deadline. -/
def AwaitUntilSpec {T : Type} (vd : Validation T) (deadline now : Int)
    (lookup : Except GoError (Option T)) (stream : List (Option T))
    (termErr : GoError) : Option ValidationError :=
  if deadline ≤ now then Check vd lookup
  else Await vd lookup stream termErr

/-- Validate (check.go:368): the raw constructor. -/
def Validate {T : Type} (qStr : String) (validationFn : Option T → Option GoError) :
    Validation T :=
  ⟨qStr, validationFn⟩

/-- Predicate (check.go:377): presence is required, then the predicate
must hold; on failure the error reads "got <FormatValue(v)>, <wantMsg>".
The source computes `got, present := vgot.Val()` and tests
`!present || !predicate(got)`; the short-circuit means the predicate is
not applied when the value is absent, which the match makes structural. -/
def Predicate {T : Type} (qStr : String) (fmtT : T → String) (wantMsg : String)
    (predicate : T → Bool) : Validation T :=
  Validate qStr fun vgot =>
    match vgot with
    | none => some (fmtErrorf ("got " ++ FormatValue fmtT none ++ ", " ++ wantMsg))
    | some got =>
      if predicate got then none
      else some (fmtErrorf ("got " ++ FormatValue fmtT (some got) ++ ", " ++ wantMsg))

/-- Equal (check.go:388): Predicate with deep equality to want. -/
def Equal {T : Type} [DecidableEq T] (qStr : String) (fmtT : T → String)
    (want : T) : Validation T :=
  Predicate qStr fmtT ("want " ++ fmtT want) fun got => decide (got = want)

/-- NotEqual (check.go:395): Predicate with deep inequality to wantNot. -/
def NotEqual {T : Type} [DecidableEq T] (qStr : String) (fmtT : T → String)
    (wantNot : T) : Validation T :=
  Predicate qStr fmtT ("want anything but " ++ fmtT wantNot)
    fun got => !decide (got = wantNot)

/-- EqualOrNil (check.go:402): fails only when present and unequal. -/
def EqualOrNil {T : Type} [DecidableEq T] (qStr : String) (fmtT : T → String)
    (want : T) : Validation T :=
  Validate qStr fun vgot =>
    match vgot with
    | none => none
    | some got =>
      if !decide (got = want) then
        some (fmtErrorf ("got " ++ FormatValue fmtT (some got) ++
          ", want " ++ fmtT want ++ " or no value"))
      else none

/-- Present (check.go:413): Predicate with the constantly-true predicate. -/
def Present {T : Type} (qStr : String) (fmtT : T → String) : Validation T :=
  Predicate qStr fmtT "want any value" fun _ => true

/-- NotPresent (check.go:420): fails exactly on present values. -/
def NotPresent {T : Type} (qStr : String) (fmtT : T → String) : Validation T :=
  Validate qStr fun vgot =>
    match vgot with
    | none => none
    | some got =>
      some (fmtErrorf ("got " ++ FormatValue fmtT (some got) ++ ", want no value"))

/-- cmp.Equal with cmpopts.SortSlices(less) (check.go:433): both slices
are sorted ascending by the strict comparison `less` and then compared
elementwise for deep equality. -/
def sortSlicesEqual {T : Type} [DecidableEq T] (less : T → T → Bool)
    (got want : List T) : Bool :=
  decide (List.insertionSort (fun a b => less b a = false) got =
          List.insertionSort (fun a b => less b a = false) want)

/-- UnorderedEqual (check.go:430): Predicate over slice values comparing
in an order-insensitive way via sorting with less. -/
def UnorderedEqual {T : Type} [DecidableEq T] (qStr : String)
    (fmtL : List T → String) (want : List T) (less : T → T → Bool) :
    Validation (List T) :=
  Predicate qStr fmtL ("want " ++ fmtL want) fun got => sortSlicesEqual less got want

/-- The value lastInvalid holds after the watch loop has consumed the
whole stream: the validation error of the last delivered value, or the
initial record when the stream delivered nothing. -/
def lastRecorded {T : Type} (fn : Option T → Option GoError) :
    Option GoError → List (Option T) → Option GoError
  | init, [] => init
  | _, v :: rest => lastRecorded fn (fn v) rest

/-! ### Helper lemmas about the watch loop and Check -/

theorem awaitWatch_all_fail {T : Type} (vd : Validation T) (termErr : GoError) :
    ∀ (stream : List (Option T)) (lastInvalid : Option GoError),
      (∀ u ∈ stream, vd.validationFn u ≠ none) →
      awaitWatch vd termErr lastInvalid stream =
        some ⟨vd.qStr, lastRecorded vd.validationFn lastInvalid stream, some termErr⟩ := by
  intro stream
  induction stream with
  | nil => intro lastInvalid h; rfl
  | cons v rest ih =>
    intro lastInvalid h
    have hv : vd.validationFn v ≠ none := h v (List.mem_cons_self v rest)
    cases hfv : vd.validationFn v with
    | none => exact absurd hfv hv
    | some e =>
      have hrec := ih (some e) (fun u hu => h u (List.mem_cons_of_mem v hu))
      simp [awaitWatch, lastRecorded, hfv, hrec]

theorem awaitWatch_first_pass {T : Type} (vd : Validation T) (termErr : GoError) :
    ∀ (pre : List (Option T)) (lastInvalid : Option GoError) (v : Option T)
      (post : List (Option T)),
      (∀ u ∈ pre, vd.validationFn u ≠ none) → vd.validationFn v = none →
      awaitWatch vd termErr lastInvalid (pre ++ v :: post) = none := by
  intro pre
  induction pre with
  | nil =>
    intro lastInvalid v post _ hv
    simp [awaitWatch, hv]
  | cons u rest ih =>
    intro lastInvalid v post hpre hv
    have hu : vd.validationFn u ≠ none := hpre u (List.mem_cons_self u rest)
    cases hfu : vd.validationFn u with
    | none => exact absurd hfu hu
    | some e =>
      have hrec := ih (some e) v post (fun w hw => hpre w (List.mem_cons_of_mem u hw)) hv
      simp [awaitWatch, hfu, hrec]

theorem awaitWatch_failure_shape {T : Type} (vd : Validation T) (termErr : GoError) :
    ∀ (stream : List (Option T)) (li : GoError) (e : ValidationError),
      awaitWatch vd termErr (some li) stream = some e →
      e.failureCause = some termErr ∧ e.validationErr.isSome = true ∧
        e.qStr = vd.qStr := by
  intro stream
  induction stream with
  | nil =>
    intro li e h
    simp only [awaitWatch, Option.some.injEq] at h
    subst h
    exact ⟨rfl, rfl, rfl⟩
  | cons v rest ih =>
    intro li e h
    cases hfv : vd.validationFn v with
    | none => simp [awaitWatch, hfv] at h
    | some e2 =>
      simp only [awaitWatch, hfv] at h
      exact ih e2 e h

theorem check_failure_none_validation {T : Type} (vd : Validation T)
    (lookup : Except GoError (Option T)) :
    ∀ e, Check vd lookup = some e → e.failureCause = none →
      ∃ err, e.validationErr = some err ∧ e.qStr = vd.qStr := by
  intro e he hfc
  cases lookup with
  | error c =>
    simp only [Check, Option.some.injEq] at he
    subst he
    simp at hfc
  | ok v =>
    cases hfv : vd.validationFn v with
    | none => simp [Check, hfv] at he
    | some err =>
      simp only [Check, hfv, Option.some.injEq] at he
      subst he
      exact ⟨err, rfl, rfl⟩

/-! ### Concrete instances used by witnesses and counterexamples -/

/-- A rendering function for Nat standing in for %#v. -/
def fmtNat : Nat → String := fun n => toString n

/-- A concrete Present validator over Nat on query path "p". -/
def cvdP : Validation Nat := Present "p" fmtNat

/-- A concrete stream-terminating error carrying a DeadlineExceeded
status, as produced by an expired context ending a watch. -/
def cterm : GoError := ⟨"context deadline exceeded", true⟩

/-! ### Claim theorems -/

/-- C2: Check performs its single fetch and (1) on a fetch error returns
a validationError with only failureCause set, independently of the
validation function, which is never invoked; (2) on a successful fetch
whose value fails validation returns a validationError with only
validationErr set; (3) returns nil when the validation function accepts
the value; (4) hence no error returned by Check ever has both causes
set. -/
theorem check_error_discipline {T : Type} (vd : Validation T) :
    (∀ e : GoError, Check vd (.error e) = some ⟨vd.qStr, none, some e⟩) ∧
    (∀ (e : GoError) (fn2 : Option T → Option GoError),
      Check vd (.error e) = Check ⟨vd.qStr, fn2⟩ (.error e)) ∧
    (∀ (v : Option T) (err : GoError), vd.validationFn v = some err →
      Check vd (.ok v) = some ⟨vd.qStr, some err, none⟩) ∧
    (∀ v : Option T, vd.validationFn v = none → Check vd (.ok v) = none) ∧
    (∀ (lookup : Except GoError (Option T)) (e : ValidationError),
      Check vd lookup = some e →
      ¬(e.validationErr.isSome = true ∧ e.failureCause.isSome = true)) := by
  refine ⟨fun e => rfl, fun e fn2 => rfl, ?_, ?_, ?_⟩
  · intro v err hfv
    simp [Check, hfv]
  · intro v hfv
    simp [Check, hfv]
  · intro lookup e he
    rintro ⟨hv, hf⟩
    cases lookup with
    | error c =>
      simp only [Check, Option.some.injEq] at he
      subst he
      simp at hv
    | ok v =>
      cases hfv : vd.validationFn v with
      | none => simp [Check, hfv] at he
      | some err =>
        simp only [Check, hfv, Option.some.injEq] at he
        subst he
        simp at hf

/-- C2 witness: at the concrete Present validator over Nat, a fetch error
yields only failureCause, a fetched absent value yields only
validationErr, and a present value passes. -/
theorem check_error_discipline_witness :
    Check cvdP (.error ⟨"rpc error", false⟩) =
      some ⟨"p", none, some ⟨"rpc error", false⟩⟩ ∧
    Check cvdP (.ok none) =
      some ⟨"p", some (fmtErrorf "got no value, want any value"), none⟩ ∧
    Check cvdP (.ok (some 7)) = none :=
  ⟨(check_error_discipline cvdP).1 ⟨"rpc error", false⟩,
   (check_error_discipline cvdP).2.2.1 none (fmtErrorf "got no value, want any value")
     (by decide),
   (check_error_discipline cvdP).2.2.2.1 (some 7) (by decide)⟩

/-- C1: Await first runs Check; a nil Check result, or a Check error with
failureCause set (a fetch failure), is returned immediately, the same for
every possible stream, so no watch is consulted.  Otherwise the watch
phase validates each delivered value in turn: it returns nil as soon as
some delivered value passes, whatever comes after it in the stream, and
when every delivered value fails it returns a validationError whose
failureCause is the stream-terminating error and whose validationErr is
the most recently recorded validation failure. -/
theorem await_spec {T : Type} (vd : Validation T) (lookup : Except GoError (Option T))
    (stream : List (Option T)) (termErr : GoError) :
    (Check vd lookup = none → Await vd lookup stream termErr = none) ∧
    (∀ e : ValidationError, Check vd lookup = some e → e.failureCause.isSome = true →
      Await vd lookup stream termErr = some e) ∧
    (∀ (e : ValidationError) (pre : List (Option T)) (v : Option T)
        (post : List (Option T)),
      Check vd lookup = some e → e.failureCause = none →
      stream = pre ++ v :: post →
      (∀ u ∈ pre, vd.validationFn u ≠ none) →
      vd.validationFn v = none →
      Await vd lookup stream termErr = none) ∧
    (∀ e : ValidationError, Check vd lookup = some e → e.failureCause = none →
      (∀ u ∈ stream, vd.validationFn u ≠ none) →
      Await vd lookup stream termErr =
        some ⟨vd.qStr, lastRecorded vd.validationFn e.validationErr stream,
          some termErr⟩) := by
  refine ⟨?_, ?_, ?_, ?_⟩
  · intro h
    simp [Await, h]
  · intro e he hfc
    simp [Await, he, hfc]
  · intro e pre v post he hfc hstream hpre hv
    subst hstream
    simp only [Await, he, hfc, Option.isSome_none, Bool.false_eq_true, if_false]
    exact awaitWatch_first_pass vd termErr pre e.validationErr v post hpre hv
  · intro e he hfc hall
    simp only [Await, he, hfc, Option.isSome_none, Bool.false_eq_true, if_false]
    exact awaitWatch_all_fail vd termErr stream e.validationErr hall

/-- C1 witness: with the Present validator, an initial fetch of an absent
value fails validation, the watch sees one more failing value and then a
passing one, and Await returns nil. -/
theorem await_spec_witness :
    Await cvdP (.ok none) [none, some 3] cterm = none :=
  (await_spec cvdP (.ok none) [none, some 3] cterm).2.2.1
    ⟨"p", some (fmtErrorf "got no value, want any value"), none⟩
    [none] (some 3) []
    (by decide) rfl rfl (by decide) (by decide)

/-- C10: every non-nil error returned by Await has failureCause set; an
error produced in the watch phase (entered only when Check reported a
validation failure with no failureCause) moreover has failureCause equal
to the stream-terminating error and validationErr set, so the rendering
branch that requires a timeout cause with no validationErr is never
reached from the watch phase; when an Await error does satisfy that
branch condition, it is exactly the error Check returned for the fetch. -/
theorem await_error_shape {T : Type} (vd : Validation T)
    (lookup : Except GoError (Option T)) (stream : List (Option T))
    (termErr : GoError) :
    (∀ e : ValidationError, Await vd lookup stream termErr = some e →
      e.failureCause.isSome = true) ∧
    (∀ c e : ValidationError, Check vd lookup = some c → c.failureCause = none →
      Await vd lookup stream termErr = some e →
      e.failureCause = some termErr ∧ e.validationErr.isSome = true ∧
        ¬(isTimeout e.failureCause = true ∧ e.validationErr = none)) ∧
    (∀ e : ValidationError, Await vd lookup stream termErr = some e →
      isTimeout e.failureCause = true → e.validationErr = none →
      Check vd lookup = some e) := by
  refine ⟨?_, ?_, ?_⟩
  · intro e h
    cases hc : Check vd lookup with
    | none => simp [Await, hc] at h
    | some c =>
      by_cases hfc : c.failureCause.isSome = true
      · have hA : Await vd lookup stream termErr = some c := by
          simp [Await, hc, hfc]
        rw [hA] at h
        cases h
        exact hfc
      · have hnone : c.failureCause = none := Option.not_isSome_iff_eq_none.mp hfc
        obtain ⟨err, herr, _⟩ := check_failure_none_validation vd lookup c hc hnone
        have hA : Await vd lookup stream termErr =
            awaitWatch vd termErr c.validationErr stream := by
          simp [Await, hc, hnone]
        rw [hA, herr] at h
        obtain ⟨h1, _, _⟩ := awaitWatch_failure_shape vd termErr stream err e h
        simp [h1]
  · intro c e hc hfcnone h
    obtain ⟨err, herr, _⟩ := check_failure_none_validation vd lookup c hc hfcnone
    have hA : Await vd lookup stream termErr =
        awaitWatch vd termErr c.validationErr stream := by
      simp [Await, hc, hfcnone]
    rw [hA, herr] at h
    obtain ⟨h1, h2, _⟩ := awaitWatch_failure_shape vd termErr stream err e h
    refine ⟨h1, h2, ?_⟩
    rintro ⟨_, hvnone⟩
    rw [hvnone] at h2
    simp at h2
  · intro e h ht hvnone
    cases hc : Check vd lookup with
    | none => simp [Await, hc] at h
    | some c =>
      by_cases hfc : c.failureCause.isSome = true
      · have hA : Await vd lookup stream termErr = some c := by
          simp [Await, hc, hfc]
        rw [hA] at h
        exact h
      · have hnone : c.failureCause = none := Option.not_isSome_iff_eq_none.mp hfc
        obtain ⟨err, herr, _⟩ := check_failure_none_validation vd lookup c hc hnone
        have hA : Await vd lookup stream termErr =
            awaitWatch vd termErr c.validationErr stream := by
          simp [Await, hc, hnone]
        rw [hA, herr] at h
        obtain ⟨_, h2, _⟩ := awaitWatch_failure_shape vd termErr stream err e h
        rw [hvnone] at h2
        simp at h2

/-- C10 witness: a watch phase that times out after an absent initial
value produces an error with the terminating cause and the recorded
validation failure, hence not in the no-values-fetched rendering branch. -/
theorem await_error_shape_witness :
    (⟨"p", some (fmtErrorf "got no value, want any value"), some cterm⟩ :
        ValidationError).failureCause = some cterm ∧
    (⟨"p", some (fmtErrorf "got no value, want any value"), some cterm⟩ :
        ValidationError).validationErr.isSome = true ∧
    ¬(isTimeout (⟨"p", some (fmtErrorf "got no value, want any value"), some cterm⟩ :
        ValidationError).failureCause = true ∧
      (⟨"p", some (fmtErrorf "got no value, want any value"), some cterm⟩ :
        ValidationError).validationErr = none) :=
  (await_error_shape cvdP (.ok none) [] cterm).2.1
    ⟨"p", some (fmtErrorf "got no value, want any value"), none⟩
    ⟨"p", some (fmtErrorf "got no value, want any value"), some cterm⟩
    (by decide) rfl (by decide)

/-- C5: the message of a validationError follows the priority order:
timeout cause with a validation error renders the validation error with a
deadline-exceeded suffix; timeout cause alone renders the no-values
message; any other set failureCause renders that cause; otherwise a set
validationErr renders it; with neither set the message is unknown
error. -/
theorem validationError_rendering (f : ValidationError) :
    (∀ v : GoError, isTimeout f.failureCause = true → f.validationErr = some v →
      f.Error = f.qStr ++ ": " ++ v.msg ++ " (deadline exceeded)") ∧
    (isTimeout f.failureCause = true → f.validationErr = none →
      f.Error = f.qStr ++ ": deadline exceeded before any values were fetched") ∧
    (∀ c : GoError, isTimeout f.failureCause = false → f.failureCause = some c →
      f.Error = f.qStr ++ ": " ++ c.msg) ∧
    (∀ v : GoError, f.failureCause = none → f.validationErr = some v →
      f.Error = f.qStr ++ ": " ++ v.msg) ∧
    (f.failureCause = none → f.validationErr = none →
      f.Error = f.qStr ++ ": unknown error") := by
  obtain ⟨q, ve, fc⟩ := f
  refine ⟨?_, ?_, ?_, ?_, ?_⟩
  · intro v ht hv
    simp only at ht hv
    subst hv
    simp [ValidationError.Error, ht]
  · intro ht hv
    simp only at ht hv
    subst hv
    simp [ValidationError.Error, ht]
  · intro c ht hc
    simp only at ht hc
    subst hc
    simp [ValidationError.Error, ht]
  · intro v hfc hv
    simp only at hfc hv
    subst hfc
    subst hv
    simp [ValidationError.Error, isTimeout]
  · intro hfc hv
    simp only at hfc hv
    subst hfc
    subst hv
    simp [ValidationError.Error, isTimeout]

/-- C5 witness: the rendering evaluated in each of the five branches at
concrete errors. -/
theorem validationError_rendering_witness :
    (⟨"p", some ⟨"got 4, want 5", false⟩, some cterm⟩ : ValidationError).Error =
      "p: got 4, want 5 (deadline exceeded)" ∧
    (⟨"p", none, some cterm⟩ : ValidationError).Error =
      "p: deadline exceeded before any values were fetched" ∧
    (⟨"p", some ⟨"got 4, want 5", false⟩, some ⟨"rpc error", false⟩⟩ :
        ValidationError).Error = "p: rpc error" ∧
    (⟨"p", some ⟨"got 4, want 5", false⟩, none⟩ : ValidationError).Error =
      "p: got 4, want 5" ∧
    (⟨"p", none, none⟩ : ValidationError).Error = "p: unknown error" :=
  ⟨(validationError_rendering ⟨"p", some ⟨"got 4, want 5", false⟩, some cterm⟩).1
      ⟨"got 4, want 5", false⟩ (by decide) rfl,
   (validationError_rendering ⟨"p", none, some cterm⟩).2.1 (by decide) rfl,
   (validationError_rendering ⟨"p", some ⟨"got 4, want 5", false⟩,
      some ⟨"rpc error", false⟩⟩).2.2.1 ⟨"rpc error", false⟩ (by decide) rfl,
   (validationError_rendering ⟨"p", some ⟨"got 4, want 5", false⟩, none⟩).2.2.2.1
      ⟨"got 4, want 5", false⟩ rfl rfl,
   (validationError_rendering ⟨"p", none, none⟩).2.2.2.2 rfl rfl⟩

/-- C3 counterexample: with a deadline exactly equal to now, AwaitUntil
does not behave as Check.  The source guard is the strict comparison
deadline.Before(now), so the boundary case enters Await: here the initial
fetch succeeds with an absent value, Present fails validation, the
expired context delivers no watch values, and the result carries the
stream-terminating deadline error, unlike the plain Check result. -/
theorem awaitUntil_at_now_counterexample :
    AwaitUntil cvdP 0 0 (Except.ok none) [] cterm ≠
      Check cvdP (Except.ok none) := by
  decide

/-- C3 amended: AwaitUntil produces identical results to Check only for
deadlines strictly before now; for every deadline at or after now it
calls Await under the derived deadline, and it agrees with the
specification reading (deadline not after now behaves as Check) at every
deadline other than now itself. -/
theorem awaitUntil_dispatch {T : Type} (vd : Validation T) (deadline now : Int)
    (lookup : Except GoError (Option T)) (stream : List (Option T))
    (termErr : GoError) :
    (deadline < now →
      AwaitUntil vd deadline now lookup stream termErr = Check vd lookup) ∧
    (now ≤ deadline →
      AwaitUntil vd deadline now lookup stream termErr =
        Await vd lookup stream termErr) ∧
    (deadline ≠ now →
      AwaitUntil vd deadline now lookup stream termErr =
        AwaitUntilSpec vd deadline now lookup stream termErr) := by
  refine ⟨?_, ?_, ?_⟩
  · intro h
    simp [AwaitUntil, h]
  · intro h
    have hnl : ¬deadline < now := not_lt.mpr h
    simp [AwaitUntil, hnl]
  · intro h
    by_cases hlt : deadline < now
    · have hle : deadline ≤ now := le_of_lt hlt
      simp [AwaitUntil, AwaitUntilSpec, hlt, hle]
    · have hle : ¬deadline ≤ now := by omega
      simp [AwaitUntil, AwaitUntilSpec, hlt, hle]

/-- C3 amended witness: at a deadline strictly in the past AwaitUntil is
Check, and at a deadline in the future it is Await, evaluated on the
Present validator. -/
theorem awaitUntil_dispatch_witness :
    AwaitUntil cvdP (-1) 0 (Except.ok none) [] cterm =
      Check cvdP (Except.ok none) ∧
    AwaitUntil cvdP 1 0 (Except.ok none) [] cterm =
      Await cvdP (Except.ok none) [] cterm :=
  ⟨(awaitUntil_dispatch cvdP (-1) 0 (Except.ok none) [] cterm).1 (by decide),
   (awaitUntil_dispatch cvdP 1 0 (Except.ok none) [] cterm).2.1 (by decide)⟩

/-- C4: AwaitFor coincides with its specification reading at every input:
a duration ≤ 0 produces the very result of Check, and a positive duration
runs Await under the derived deadline. -/
theorem awaitFor_dispatch {T : Type} (vd : Validation T) (timeout : Int)
    (lookup : Except GoError (Option T)) (stream : List (Option T))
    (termErr : GoError) :
    AwaitFor vd timeout lookup stream termErr =
      AwaitForSpec vd timeout lookup stream termErr ∧
    (timeout ≤ 0 →
      AwaitFor vd timeout lookup stream termErr = Check vd lookup) ∧
    (0 < timeout →
      AwaitFor vd timeout lookup stream termErr =
        Await vd lookup stream termErr) := by
  refine ⟨rfl, ?_, ?_⟩
  · intro h
    simp [AwaitFor, h]
  · intro h
    have hnl : ¬timeout ≤ 0 := not_le.mpr h
    simp [AwaitFor, hnl]

/-- C4 witness: a zero duration produces the Check result and a positive
duration produces the Await result, evaluated on the Present validator. -/
theorem awaitFor_dispatch_witness :
    AwaitFor cvdP 0 (Except.ok none) [] cterm = Check cvdP (Except.ok none) ∧
    AwaitFor cvdP 1 (Except.ok none) [] cterm =
      Await cvdP (Except.ok none) [] cterm :=
  ⟨(awaitFor_dispatch cvdP 0 (Except.ok none) [] cterm).2.1 (by decide),
   (awaitFor_dispatch cvdP 1 (Except.ok none) [] cterm).2.2 (by decide)⟩

/-- C6: a Predicate-built validator fails on every absent value with the
message "got <FormatValue(value)>, <wantMsg>", and its behaviour on an
absent value does not depend on the predicate function at all (the
predicate is never consulted there); consequently NotEqual fails at Check
on an absent value, fails on a present value deep-equal to wantNot, and
succeeds on every other present value. -/
theorem predicate_absent_notEqual {T : Type} [DecidableEq T] (qStr : String)
    (fmtT : T → String) (wantMsg : String) (predicate : T → Bool) (wantNot : T) :
    ((Predicate qStr fmtT wantMsg predicate).validationFn none =
      some (fmtErrorf ("got " ++ FormatValue fmtT none ++ ", " ++ wantMsg))) ∧
    (∀ predicate2 : T → Bool,
      (Predicate qStr fmtT wantMsg predicate).validationFn none =
        (Predicate qStr fmtT wantMsg predicate2).validationFn none) ∧
    (Check (NotEqual qStr fmtT wantNot) (.ok none) ≠ none) ∧
    (Check (NotEqual qStr fmtT wantNot) (.ok (some wantNot)) ≠ none) ∧
    (∀ got : T, got ≠ wantNot →
      Check (NotEqual qStr fmtT wantNot) (.ok (some got)) = none) := by
  refine ⟨rfl, fun _ => rfl, ?_, ?_, ?_⟩
  · simp [Check, NotEqual, Predicate, Validate]
  · simp [Check, NotEqual, Predicate, Validate]
  · intro got hne
    simp [Check, NotEqual, Predicate, Validate, hne]

/-- C6 witness: over Nat with wantNot = 2, an absent value fails with the
stated message, 2 fails, and 1 passes. -/
theorem predicate_absent_notEqual_witness :
    ((Predicate "p" fmtNat "want a multiple of 4" fun n => decide (n % 4 = 0)) :
        Validation Nat).validationFn none =
      some (fmtErrorf "got no value, want a multiple of 4") ∧
    Check (NotEqual "p" fmtNat 2) (.ok none) ≠ none ∧
    Check (NotEqual "p" fmtNat 2) (.ok (some 2)) ≠ none ∧
    Check (NotEqual "p" fmtNat 2) (.ok (some 1)) = none :=
  ⟨(predicate_absent_notEqual "p" fmtNat "want a multiple of 4"
      (fun n => decide (n % 4 = 0)) 2).1,
   (predicate_absent_notEqual "p" fmtNat "want a multiple of 4"
      (fun n => decide (n % 4 = 0)) 2).2.2.1,
   (predicate_absent_notEqual "p" fmtNat "want a multiple of 4"
      (fun n => decide (n % 4 = 0)) 2).2.2.2.1,
   (predicate_absent_notEqual "p" fmtNat "want a multiple of 4"
      (fun n => decide (n % 4 = 0)) 2).2.2.2.2 1 (by decide)⟩

/-- C7: EqualOrNil accepts every absent value and the present value
deep-equal to want; it rejects exactly the present values different from
want, with the message "got <value>, want <want> or no value". -/
theorem equalOrNil_spec {T : Type} [DecidableEq T] (qStr : String)
    (fmtT : T → String) (want : T) :
    ((EqualOrNil qStr fmtT want).validationFn none = none) ∧
    ((EqualOrNil qStr fmtT want).validationFn (some want) = none) ∧
    (∀ got : T, got ≠ want →
      (EqualOrNil qStr fmtT want).validationFn (some got) =
        some (fmtErrorf ("got " ++ FormatValue fmtT (some got) ++
          ", want " ++ fmtT want ++ " or no value"))) ∧
    (∀ got : T,
      (EqualOrNil qStr fmtT want).validationFn (some got) = none ↔ got = want) := by
  refine ⟨rfl, ?_, ?_, ?_⟩
  · simp [EqualOrNil, Validate]
  · intro got hne
    simp [EqualOrNil, Validate, hne]
  · intro got
    by_cases hcase : got = want
    · subst hcase
      simp [EqualOrNil, Validate]
    · simp [EqualOrNil, Validate, hcase]

/-- C7 witness: over Nat with want = 5, absence and 5 pass while 4 fails
with the stated message. -/
theorem equalOrNil_spec_witness :
    ((EqualOrNil "p" fmtNat 5) : Validation Nat).validationFn none = none ∧
    ((EqualOrNil "p" fmtNat 5) : Validation Nat).validationFn (some 5) = none ∧
    ((EqualOrNil "p" fmtNat 5) : Validation Nat).validationFn (some 4) =
      some (fmtErrorf "got 4, want 5 or no value") :=
  ⟨(equalOrNil_spec "p" fmtNat 5).1,
   (equalOrNil_spec "p" fmtNat 5).2.1,
   (equalOrNil_spec "p" fmtNat 5).2.2.1 4 (by decide)⟩

/-- C8: on every fetched value, Present succeeds exactly on present
values regardless of content, NotPresent succeeds exactly on absent
values, and the two validations are mutually exclusive and exhaustive:
exactly one of them returns nil on each value. -/
theorem present_notPresent_dichotomy {T : Type} (qStr : String)
    (fmtT : T → String) (v : Option T) :
    (((Present qStr fmtT).validationFn v = none) ↔ v.isSome = true) ∧
    (((NotPresent qStr fmtT).validationFn v = none) ↔ v = none) ∧
    (((Present qStr fmtT).validationFn v = none) ↔
      ¬((NotPresent qStr fmtT).validationFn v = none)) := by
  cases v with
  | none => simp [Present, NotPresent, Predicate, Validate]
  | some t => simp [Present, NotPresent, Predicate, Validate]

/-- C9: for a strict ordering less (asymmetric, transitive, trichotomous),
the UnorderedEqual validation accepts a present fetched sequence exactly
when it is a permutation of want (order-insensitive multiset equality via
sorting both sides); an absent value fails, and any sequence whose length
differs from that of want fails. -/
theorem unorderedEqual_perm {T : Type} [DecidableEq T] (qStr : String)
    (fmtL : List T → String) (want : List T) (less : T → T → Bool)
    (hasymm : ∀ a b : T, less a b = true → less b a = false)
    (htrans : ∀ a b c : T, less a b = true → less b c = true → less a c = true)
    (htri : ∀ a b : T, less a b = true ∨ a = b ∨ less b a = true) :
    (∀ got : List T,
      (UnorderedEqual qStr fmtL want less).validationFn (some got) = none ↔
        got.Perm want) ∧
    ((UnorderedEqual qStr fmtL want less).validationFn none ≠ none) ∧
    (∀ got : List T, got.length ≠ want.length →
      (UnorderedEqual qStr fmtL want less).validationFn (some got) ≠ none) := by
  haveI instT : IsTrans T (fun a b => less b a = false) := by
    constructor
    intro a b c hab hbc
    by_contra hne
    have hca : less c a = true := by simpa using hne
    rcases htri b a with h1 | h1 | h1
    · simp [h1] at hab
    · subst h1
      simp [hca] at hbc
    · have hcb := htrans c a b hca h1
      simp [hcb] at hbc
  haveI instTot : IsTotal T (fun a b => less b a = false) := by
    constructor
    intro a b
    cases h : less b a with
    | false => exact Or.inl rfl
    | true => exact Or.inr (hasymm b a h)
  haveI instAnti : IsAntisymm T (fun a b => less b a = false) := by
    constructor
    intro a b hab hba
    rcases htri a b with h | h | h
    · simp [h] at hba
    · exact h
    · simp [h] at hab
  have key : ∀ got : List T,
      sortSlicesEqual less got want = true ↔ got.Perm want := by
    intro got
    unfold sortSlicesEqual
    rw [decide_eq_true_iff]
    constructor
    · intro h
      have p1 := (List.perm_insertionSort (fun a b => less b a = false) got).symm
      have p2 := List.perm_insertionSort (fun a b => less b a = false) want
      rw [h] at p1
      exact p1.trans p2
    · intro hperm
      exact List.eq_of_perm_of_sorted
        ((List.perm_insertionSort (fun a b => less b a = false) got).trans
          (hperm.trans
            (List.perm_insertionSort (fun a b => less b a = false) want).symm))
        (List.sorted_insertionSort (fun a b => less b a = false) got)
        (List.sorted_insertionSort (fun a b => less b a = false) want)
  have hiff : ∀ got : List T,
      (UnorderedEqual qStr fmtL want less).validationFn (some got) = none ↔
        got.Perm want := by
    intro got
    cases h : sortSlicesEqual less got want with
    | true =>
      simp [UnorderedEqual, Predicate, Validate, h]
      exact (key got).mp h
    | false =>
      simp [UnorderedEqual, Predicate, Validate, h]
      intro hperm
      have := (key got).mpr hperm
      simp [h] at this
  refine ⟨hiff, ?_, fun got hlen hnone => hlen ((hiff got).mp hnone).length_eq⟩
  simp [UnorderedEqual, Predicate, Validate]

/-- The strict less-than comparison on Nat, as the lessFn argument. -/
def natLess : Nat → Nat → Bool := fun a b => decide (a < b)

/-- A rendering function for Nat lists standing in for %#v. -/
def fmtNatList : List Nat → String := fun l => toString l

/-- C9 witness: with want = [3,1,2] under less-than on Nat, the fetched
permutation [1,2,3] passes and the shorter [1,2] fails. -/
theorem unorderedEqual_perm_witness :
    (UnorderedEqual "q" fmtNatList [3, 1, 2] natLess).validationFn
      (some [1, 2, 3]) = none ∧
    (UnorderedEqual "q" fmtNatList [3, 1, 2] natLess).validationFn
      (some [1, 2]) ≠ none :=
  ⟨((unorderedEqual_perm "q" fmtNatList [3, 1, 2] natLess
      (fun a b h => decide_eq_false (Nat.lt_asymm (of_decide_eq_true h)))
      (fun a b c hab hbc =>
        decide_eq_true (Nat.lt_trans (of_decide_eq_true hab) (of_decide_eq_true hbc)))
      (fun a b => by
        rcases Nat.lt_trichotomy a b with h | h | h
        · exact Or.inl (decide_eq_true h)
        · exact Or.inr (Or.inl h)
        · exact Or.inr (Or.inr (decide_eq_true h)))).1 [1, 2, 3]).mpr (by decide),
   (unorderedEqual_perm "q" fmtNatList [3, 1, 2] natLess
      (fun a b h => decide_eq_false (Nat.lt_asymm (of_decide_eq_true h)))
      (fun a b c hab hbc =>
        decide_eq_true (Nat.lt_trans (of_decide_eq_true hab) (of_decide_eq_true hbc)))
      (fun a b => by
        rcases Nat.lt_trichotomy a b with h | h | h
        · exact Or.inl (decide_eq_true h)
        · exact Or.inr (Or.inl h)
        · exact Or.inr (Or.inr (decide_eq_true h)))).2.2 [1, 2] (by decide)⟩

end CheckPkg
